import Mathlib

/-!
Verification development for the polygon-edge event-tracker core
(`PolybftEventTracker` in the polybft package) and the rootchain
SAM quorum pool (`rootchain/sampool/bucket.go`).

Shallow embedding conventions:
- `uint64` values are `Nat`; Go wrap-around arithmetic is made explicit with
  `% 2 ^ 64` exactly where the Go code can overflow or underflow.
- Go maps are association lists (`List (key × value)`); lookup finds the
  first matching key, update replaces in place or appends.
- Fallible external calls (RPC provider, durable store) are oracles inside
  an `Env` record; `Option`/result codes replace Go's `error` returns.
- The `TrackerBlockContainer` implementation is not part of the given
  sources (only its callers are), so its operations are modelled from the
  spec, as marked in their doc comments.
-/

/-- Block header record: number and hash (parent hash and timestamp are not
needed by any claim). -/
structure Block where
  number : Nat
  hash : Nat
deriving DecidableEq, Repr

/-- Event log record: emitting address and the list of topics
(`Topics[0]` is the event signature topic). -/
structure Log where
  address : Nat
  topics : List Nat
deriving DecidableEq, Repr

/-- Modelled from the spec: the Confirmation Window state
(`TrackerBlockContainer`), whose implementation is missing from the given
sources. It holds the `lastProcessed` watermark and the ordered cache of
block headers with numbers in `(lastProcessed, lastCached]`. -/
structure TrackerBlockContainer where
  lastProcessed : Nat
  cache : List Block
deriving DecidableEq, Repr

/-- Modelled from the spec: `lastCached` is the highest block number
currently in the cache, or `lastProcessed` when the cache is empty. -/
def lastCachedBlock (c : TrackerBlockContainer) : Nat :=
  (c.cache.getLast?).elim c.lastProcessed Block.number

/-- Modelled from the spec: `classify` / `IsOutOfSync` returns out-of-sync
if `block.number ≠ lastCached + 1` (covers both a missed gap and a
shrinking or forked head). -/
def isOutOfSync (c : TrackerBlockContainer) (b : Block) : Bool :=
  b.number != lastCachedBlock c + 1

/-- Modelled from the spec: `append` / `AddBlock` adds the header to the
cache and advances `lastCached`; it is a no-op, not an error, if
`block.number ≤ lastCached`. -/
def addBlock (c : TrackerBlockContainer) (b : Block) : TrackerBlockContainer :=
  if b.number ≤ lastCachedBlock c then c
  else { c with cache := c.cache ++ [b] }

/-- Modelled from the spec: `reset` / `CleanState` clears the cache
entirely; the resync procedure resets to baseline `lastProcessed`. -/
def cleanState (c : TrackerBlockContainer) : TrackerBlockContainer :=
  { c with cache := [] }

/-- Modelled from the spec: `confirmedRange` / `GetConfirmedBlocks` returns
the contiguous prefix of cached block numbers `n` that are confirmed
(`lastCached − n ≥ confirmations`), or none if the oldest cached entry is
not yet confirmed (in particular when the cache is empty). -/
def getConfirmedBlocks (c : TrackerBlockContainer) (confirmations : Nat) :
    Option (List Nat) :=
  let pfx := (c.cache.map Block.number).takeWhile
    (fun n => n + confirmations ≤ lastCachedBlock c)
  if pfx.isEmpty then none else some pfx

/-- Modelled from the spec: `evict` / `RemoveBlocks` removes `[from, to]`
from the cache and sets `lastProcessed = to`; it fails (returns none,
without mutating) if the range is not a prefix of the current cache. -/
def removeBlocks (c : TrackerBlockContainer) (f t : Nat) :
    Option TrackerBlockContainer :=
  let k := t + 1 - f
  if (c.cache.map Block.number).take k = List.range' f k then
    some { lastProcessed := t, cache := c.cache.drop k }
  else none

/-- Lookup in the Go map `LogFilter map[ethgo.Address][]ethgo.Hash`,
modelled as an association list. -/
def lookupFilter : List (Nat × List Nat) → Nat → Option (List Nat)
  | [], _ => none
  | (a, ids) :: rest, addr => if a = addr then some ids else lookupFilter rest addr

/-- Number of `EventSubscriber.AddLog` calls the inner filtering loop of
`processLogs` performs for a log with primary topic `topic0` against the
accepted id list: the loop appends, forwards and `break`s on the first
match. -/
def innerLoopCalls (topic0 : Nat) : List Nat → Nat
  | [] => 0
  | id :: rest => if topic0 = id then 1 else innerLoopCalls topic0 rest

/-- The inner loop of `processLogs` as a boolean: does the log's primary
topic match one of the accepted ids (first match wins, then `break`)? -/
def topicLoopMatch (topic0 : Nat) : List Nat → Bool
  | [] => false
  | id :: rest => if topic0 = id then true else topicLoopMatch topic0 rest

/-- Per-log decision of the filtering loop in `processLogs`:
`none` models the Go panic from evaluating `log.Topics[0]` on an empty
topics slice (which happens exactly when the address is a filter key with
a non-empty id list), `some b` says whether the log is forwarded. -/
def processOneLog (flt : List (Nat × List Nat)) (l : Log) : Option Bool :=
  match lookupFilter flt l.address with
  | none => some false
  | some [] => some false
  | some (id :: rest) =>
    match l.topics with
    | [] => none
    | t :: _ => some (topicLoopMatch t (id :: rest))

/-- The filtering loop of `processLogs` over all fetched logs: returns the
forwarded (filtered) logs in order, and whether the loop panicked on an
empty topics slice (in which case the first component is the prefix
forwarded before the panic). -/
def filterLogsAcc (flt : List (Nat × List Nat)) : List Log → List Log × Bool
  | [] => ([], false)
  | l :: rest =>
    match processOneLog flt l with
    | none => ([], true)
    | some true => let r := filterLogsAcc flt rest; (l :: r.1, r.2)
    | some false => filterLogsAcc flt rest

/-- Tracker configuration (the fields of `PolybftTrackerConfig` the
embedded operations read). -/
structure Cfg where
  numBlockConfirmations : Nat
  syncBatchSize : Nat
  maxBacklogSize : Nat
  logFilter : List (Nat × List Nat)

/-- Oracle for the external collaborators: the RPC block/log provider
(`none` = provider error) and the success of the two durable-store
writes. -/
structure Env where
  getBlockByNumber : Nat → Option Block
  getLogs : Nat → Nat → Option (List Log)
  wmOk : Bool
  logsOk : Bool

/-- Observable state threaded through the tracker operations: the
confirmation window, the durable watermark, the durably stored logs and
the logs forwarded to the subscriber. -/
structure World where
  container : TrackerBlockContainer
  wm : Nat
  storeLogs : List Log
  subscribed : List Log
deriving DecidableEq, Repr

/-- Result code of an embedded operation: success, a returned Go error,
a Go panic, or fuel exhaustion of the embedding's loop counter. -/
inductive Res where
  | ok
  | err
  | panicked
  | fuelOut
deriving DecidableEq, Repr

/-- Effect-trace events emitted by `processLogs`, in program order:
the `GetLogs` RPC call, each `AddLog` subscriber call, the two
durable-store writes (recorded when attempted), and the eviction. -/
inductive Ev where
  | getLogsCall (f t : Nat)
  | addLog (l : Log)
  | insertWatermark (n : Nat)
  | insertLogs (ls : List Log)
  | evict (f t : Nat)
deriving DecidableEq, Repr

/-- Embedding of `PolybftEventTracker.processLogs`: take the confirmed
range, fetch its logs, filter and forward, write the watermark, write the
logs, then evict the range; any failure returns early. The third component
is the effect trace of this single pass. -/
def processLogs (cfg : Cfg) (env : Env) (w : World) : Res × World × List Ev :=
  match getConfirmedBlocks w.container cfg.numBlockConfirmations with
  | none => (.ok, w, [])
  | some confirmed =>
    let fromBlock := confirmed.headD 0
    let toBlock := confirmed.getLastD 0
    match env.getLogs fromBlock toBlock with
    | none => (.err, w, [.getLogsCall fromBlock toBlock])
    | some logs =>
      let fr := filterLogsAcc cfg.logFilter logs
      let filtered := fr.1
      let w1 := { w with subscribed := w.subscribed ++ filtered }
      let tr := Ev.getLogsCall fromBlock toBlock :: filtered.map Ev.addLog
      if fr.2 then (.panicked, w1, tr)
      else if env.wmOk then
        let w2 := { w1 with wm := toBlock }
        if env.logsOk then
          let w3 := { w2 with storeLogs := w2.storeLogs ++ filtered }
          match removeBlocks w3.container fromBlock toBlock with
          | some c => (.ok, { w3 with container := c },
              tr ++ [.insertWatermark toBlock, .insertLogs filtered, .evict fromBlock toBlock])
          | none => (.err, w3, tr ++ [.insertWatermark toBlock, .insertLogs filtered])
        else (.err, w2, tr ++ [.insertWatermark toBlock, .insertLogs filtered])
      else (.err, w1, tr ++ [.insertWatermark toBlock])

/-- Go `uint64` wrap-around for additions that can overflow. -/
def u64 (n : Nat) : Nat := n % 2 ^ 64

/-- Go `uint64` subtraction of one, wrapping at zero
(`latestBlock.Number - 1` in `getNewState` is unguarded). -/
def wsub1 (n : Nat) : Nat := if n = 0 then 2 ^ 64 - 1 else n - 1

/-- Start block of the resync in `getNewState`:
`startBlock := lastProcessedBlock + 1`, then clamped to
`latestBlock.Number - MaxBacklogSize` when
`latestBlock.Number > MaxBacklogSize &&
latestBlock.Number - MaxBacklogSize > lastProcessedBlock`. -/
def startBlockCalc (lastProcessed latestNumber maxBacklogSize : Nat) : Nat :=
  let startBlock := u64 (lastProcessed + 1)
  if latestNumber > maxBacklogSize ∧ latestNumber - maxBacklogSize > lastProcessed then
    latestNumber - maxBacklogSize
  else startBlock

/-- Upper bound `end` of one batch in `getNewState`:
`end := i + SyncBatchSize; if end > latestBlock.Number { end = latestBlock.Number - 1 }`. -/
def endOfBatch (cfg : Cfg) (i latestN : Nat) : Nat :=
  let e := u64 (i + cfg.syncBatchSize)
  if e > latestN then wsub1 latestN else e

/-- Inner loop of one batch in `getNewState`: fetch each block number via
`GetBlockByNumber` and `AddBlock` it; on a provider error stop, keeping the
already-added prefix. Returns the container, success, and the list of block
numbers actually requested via RPC. -/
def fetchList (env : Env) (c : TrackerBlockContainer) :
    List Nat → TrackerBlockContainer × Bool × List Nat
  | [] => (c, true, [])
  | j :: rest =>
    match env.getBlockByNumber j with
    | none => (c, false, [j])
    | some b =>
      let r := fetchList env (addBlock c b) rest
      (r.1, r.2.1, j :: r.2.2)

/-- Batch loop of `getNewState`:
`for i := startBlock; i <= latestBlock.Number; i += SyncBatchSize`, fetching
`[i, end)` and running `processLogs` once per batch. Structurally recursive
on a fuel counter (the Go loop terminates whenever `SyncBatchSize ≥ 1` and
no wrap-around occurs, and the callers supply ample fuel). The last
component is the list of block numbers requested via RPC. -/
def getNewStateLoop (cfg : Cfg) (env : Env) (latestN : Nat) :
    Nat → Nat → World → Res × World × List Nat
  | 0, _, w => (.fuelOut, w, [])
  | Nat.succ fuel, i, w =>
    if i ≤ latestN then
      let endB := endOfBatch cfg i latestN
      let fr := fetchList env w.container (List.range' i (endB - i))
      let w1 := { w with container := fr.1 }
      if fr.2.1 then
        match processLogs cfg env w1 with
        | (.ok, w2, _) =>
          let r := getNewStateLoop cfg env latestN fuel (u64 (i + cfg.syncBatchSize)) w2
          (r.1, r.2.1, fr.2.2 ++ r.2.2)
        | (res, w2, _) => (res, w2, fr.2.2)
      else (.err, w1, fr.2.2)
    else (.ok, w, [])

/-- Embedding of `PolybftEventTracker.getNewState`: clean the window,
compute the clamped start block, fetch the missed blocks in batches running
`processLogs` per batch, then add the latest block itself and run
`processLogs` once more. The last component is the list of block numbers
requested via RPC. -/
def getNewState (cfg : Cfg) (env : Env) (latest : Block) (w : World) :
    Res × World × List Nat :=
  let lastProcessed := w.container.lastProcessed
  let w0 := { w with container := cleanState w.container }
  let startBlock := startBlockCalc lastProcessed latest.number cfg.maxBacklogSize
  match getNewStateLoop cfg env latest.number (latest.number + 2) startBlock w0 with
  | (.ok, w1, reqs) =>
    let w2 := { w1 with container := addBlock w1.container latest }
    let pr := processLogs cfg env w2
    (pr.1, pr.2.1, reqs)
  | other => other

/-- Embedding of `PolybftEventTracker.trackBlock`: a block that is not out
of sync is appended when `LastCachedBlock() < block.Number` and the logs of
newly confirmed blocks are processed; an out-of-sync block triggers
`getNewState`. -/
def trackBlock (cfg : Cfg) (env : Env) (w : World) (b : Block) :
    Res × World × List Nat :=
  if isOutOfSync w.container b then getNewState cfg env b w
  else
    let w1 := if lastCachedBlock w.container < b.number
      then { w with container := addBlock w.container b } else w
    let pr := processLogs cfg env w1
    (pr.1, pr.2.1, [])

/-- Initial `definiteLastProcessedBlock` computed by
`NewPolybftEventTracker` from the configured start block and the durable
watermark read from the store. -/
def definiteLastProcessedBlock (startBlockFromConfig wm : Nat) : Nat :=
  let d := if startBlockFromConfig > 0 then startBlockFromConfig - 1 else 0
  if wm > d then wm else d

/-- Embedding of `NewPolybftEventTracker`: reading the durable watermark
can fail (`none`), otherwise the tracker's block container is seeded with
`definiteLastProcessedBlock` and an empty cache. -/
def newPolybftEventTracker (startBlockFromConfig : Nat) (storeRead : Option Nat) :
    Option TrackerBlockContainer :=
  match storeRead with
  | none => none
  | some wm => some ⟨definiteLastProcessedBlock startBlockFromConfig wm, []⟩

/-- A signed attestation message (`rootchain.SAM`): the subject hash it
attests to, the signature bytes used as the dedup key, and an opaque
payload. -/
structure SAM where
  hash : Nat
  signature : List Nat
  payload : Nat
deriving DecidableEq, Repr

/-- Set of SAM messages for one subject (`samSet`): the message slice plus
the signature set used for dedup. -/
structure samSet where
  messages : List SAM
  signatures : List (List Nat)
deriving DecidableEq, Repr

/-- Embedding of `newSet`. -/
def newSet : samSet := ⟨[], []⟩

/-- Embedding of `samSet.add`: drop the message if its signature bytes are
already present, otherwise append it and record the signature. -/
def samSet.add (s : samSet) (msg : SAM) : samSet :=
  if msg.signature ∈ s.signatures then s
  else { messages := s.messages ++ [msg], signatures := s.signatures ++ [msg.signature] }

/-- Embedding of `samSet.get`. -/
def samSet.get (s : samSet) : List SAM := s.messages

/-- The Go map `samBucket map[types.Hash]samSet` as an association list. -/
abbrev samBucket := List (Nat × samSet)

/-- Go map read for `samBucket`. -/
def bucketLookup : samBucket → Nat → Option samSet
  | [], _ => none
  | (k, v) :: rest, h => if k = h then some v else bucketLookup rest h

/-- Go map write for `samBucket`: replace in place, or append a new pair. -/
def bucketUpdate : samBucket → Nat → samSet → samBucket
  | [], h, v => [(h, v)]
  | (k, w) :: rest, h, v =>
    if k = h then (h, v) :: rest else (k, w) :: bucketUpdate rest h v

/-- Embedding of `samBucket.add`: take the subject's set (a fresh empty set
when the subject is new), add the message deduped by signature, and store
the set back under `msg.Hash`. -/
def samBucket.add (b : samBucket) (msg : SAM) : samBucket :=
  let s := (bucketLookup b msg.hash).getD newSet
  bucketUpdate b msg.hash (s.add msg)

/-- Number of messages held for a subject. -/
def subjectCount (b : samBucket) (h : Nat) : Nat :=
  ((bucketLookup b h).getD newSet).messages.length

/-- Embedding of `samBucket.getQuorumMessages`: scan the subjects and
return the message set of the first one whose message count satisfies the
quorum predicate, or none. -/
def getQuorumMessages (b : samBucket) (quorum : Nat → Bool) : Option (List SAM) :=
  match b with
  | [] => none
  | (_, s) :: rest =>
    if quorum (samSet.get s).length then some (samSet.get s)
    else getQuorumMessages rest quorum

/-- Trace predicate: every durable log write (`InsertLogs`) in the trace is
preceded by a watermark write (`InsertLastProcessedBlock`). -/
def logsWriteAfterWM : List Ev → Bool
  | [] => true
  | Ev.insertLogs _ :: _ => false
  | Ev.insertWatermark _ :: _ => true
  | Ev.getLogsCall _ _ :: r => logsWriteAfterWM r
  | Ev.addLog _ :: r => logsWriteAfterWM r
  | Ev.evict _ _ :: r => logsWriteAfterWM r

/-- Auxiliary scan for `evictGated`: the flags record whether a watermark
write and a log write have already occurred. -/
def evictGatedAux : Bool → Bool → List Ev → Bool
  | _, _, [] => true
  | _, b, Ev.insertWatermark _ :: r => evictGatedAux true b r
  | a, _, Ev.insertLogs _ :: r => evictGatedAux a true r
  | a, b, Ev.evict _ _ :: r => a && b && evictGatedAux a b r
  | a, b, Ev.getLogsCall _ _ :: r => evictGatedAux a b r
  | a, b, Ev.addLog _ :: r => evictGatedAux a b r

/-- Trace predicate: an eviction occurs only after both a watermark write
and a log write have occurred earlier in the trace. -/
def evictGated (tr : List Ev) : Bool := evictGatedAux false false tr

/-- Provider oracle whose block fetches all succeed (block number `j` has
hash `j`) and that reports no logs; both store writes succeed. -/
def demoEnvOk : Env :=
  { getBlockByNumber := fun j => some ⟨j, j⟩
    getLogs := fun _ _ => some []
    wmOk := true
    logsOk := true }

/-- Configuration with confirmation depth 10, sync batch size 3, backlog
cap 10000 and an empty log filter. -/
def demoCfg : Cfg :=
  { numBlockConfirmations := 10, syncBatchSize := 3, maxBacklogSize := 10000, logFilter := [] }

/-- Freshly started world: empty window, watermark 0, nothing stored. -/
def demoWorld : World := ⟨⟨0, []⟩, 0, [], []⟩

/-- Configuration with confirmation depth 10, sync batch size 1 and an
empty log filter. -/
def cfgC5 : Cfg :=
  { numBlockConfirmations := 10, syncBatchSize := 1, maxBacklogSize := 10000, logFilter := [] }

/-- Provider oracle whose block fetches all fail. -/
def envRpcErr : Env :=
  { getBlockByNumber := fun _ => none
    getLogs := fun _ _ => some []
    wmOk := true
    logsOk := true }

/-- World whose window caches blocks 1..3 above watermark 0. -/
def wC5 : World := ⟨⟨0, [⟨1, 1⟩, ⟨2, 2⟩, ⟨3, 3⟩]⟩, 0, [], []⟩

/-- Block number 3 with hash 3, a duplicate of the newest cached block of
`wC5`. -/
def bC5 : Block := ⟨3, 3⟩

/-- World whose window caches blocks 1..5 above watermark 0. -/
def w5 : World := ⟨⟨0, [⟨1, 1⟩, ⟨2, 2⟩, ⟨3, 3⟩, ⟨4, 4⟩, ⟨5, 5⟩]⟩, 0, [], []⟩

/-- Configuration with confirmation depth 2 and a filter accepting topic 9
from address 7. -/
def cfgF : Cfg :=
  { numBlockConfirmations := 2, syncBatchSize := 10, maxBacklogSize := 10000,
    logFilter := [(7, [9])] }

/-- Provider oracle returning one matching log (address 7, topic 9). -/
def envF : Env :=
  { getBlockByNumber := fun j => some ⟨j, j⟩
    getLogs := fun _ _ => some [⟨7, [9]⟩]
    wmOk := true
    logsOk := true }

/-- Provider oracle whose log fetches fail. -/
def envG : Env :=
  { getBlockByNumber := fun j => some ⟨j, j⟩
    getLogs := fun _ _ => none
    wmOk := true
    logsOk := true }

/-- Provider oracle returning one log from the filtered address 7 carrying
no topics at all. -/
def panicEnv : Env :=
  { getBlockByNumber := fun j => some ⟨j, j⟩
    getLogs := fun _ _ => some [⟨7, []⟩]
    wmOk := true
    logsOk := true }

/-- Attestation about subject 1 with signature bytes `[2, 3]`. -/
def samA : SAM := ⟨1, [2, 3], 0⟩

/-- Attestation about subject 1 with the same signature bytes as `samA`
but a different payload. -/
def samB : SAM := ⟨1, [2, 3], 7⟩

/-- Attestation about subject 1 with signature bytes `[4]`. -/
def samC : SAM := ⟨1, [4], 1⟩

/-- Bucket holding one subject with a single message. -/
def demoBucket : samBucket := [(1, ⟨[samA], [[2, 3]]⟩)]

/-- Quorum predicate requiring at least one message. -/
def demoQ : Nat → Bool := fun n => decide (1 ≤ n)

theorem topicLoopMatch_iff (t : Nat) (ids : List Nat) :
    topicLoopMatch t ids = true ↔ t ∈ ids := by
  induction ids with
  | nil => simp [topicLoopMatch]
  | cons id rest ih => by_cases h : t = id <;> simp [topicLoopMatch, h, ih]

theorem innerLoopCalls_eq (t : Nat) (ids : List Nat) :
    innerLoopCalls t ids = if t ∈ ids then 1 else 0 := by
  induction ids with
  | nil => simp [innerLoopCalls]
  | cons id rest ih => by_cases h : t = id <;> simp [innerLoopCalls, h, ih]

/-- C3: the resync start block is `lastProcessed + 1`, except when
`latest.number − maxBacklog > lastProcessed` (over the integers), in which
case it is `latest.number − maxBacklog`; in particular for
`lastProcessed = 5`, `latest.number = 10050`, `maxBacklog = 10000` the
resync starts at block 50, not 6. -/
theorem startBlockCalc_clamp :
    (∀ lp n mb : Nat, lp + 1 < 2 ^ 64 →
      (startBlockCalc lp n mb : ℤ) =
        if (n : ℤ) - (mb : ℤ) > (lp : ℤ) then (n : ℤ) - (mb : ℤ) else (lp : ℤ) + 1)
    ∧ startBlockCalc 5 10050 10000 = 50 := by
  constructor
  · intro lp n mb h
    simp only [startBlockCalc, u64]
    split_ifs <;> omega
  · rfl

/-- Witness for `startBlockCalc_clamp` at the spec's own example. -/
theorem startBlockCalc_clamp_witness :
    (5 : Nat) + 1 < 2 ^ 64 ∧
    (startBlockCalc 5 10050 10000 : ℤ) =
      if (10050 : ℤ) - (10000 : ℤ) > (5 : ℤ) then (10050 : ℤ) - (10000 : ℤ)
      else (5 : ℤ) + 1 :=
  ⟨by norm_num, startBlockCalc_clamp.1 5 10050 10000 (by norm_num)⟩

/-- C6: the tracker's initial `lastProcessed` equals
`max(configuredStart − 1, durableWatermark)` (over the integers, so a
configured start of 0 defers to the watermark). -/
theorem newTracker_initial_lastProcessed (s wm : Nat) :
    (((newPolybftEventTracker s (some wm)).elim 0 TrackerBlockContainer.lastProcessed : Nat) : ℤ) =
      max ((s : ℤ) - 1) (wm : ℤ) := by
  simp only [newPolybftEventTracker, definiteLastProcessedBlock, Option.elim]
  split_ifs <;> omega

/-- C4: a fetched log with primary topic `t` is forwarded by the filtering
loop of `processLogs` iff its address is a filter key and `t` is in that
address's accepted set; and for a filtered address the inner loop calls
`AddLog` exactly once on a match (the `break`) and never otherwise. -/
theorem processLogs_filter_exact (flt : List (Nat × List Nat)) (l : Log)
    (t : Nat) (ts : List Nat) (h : l.topics = t :: ts) :
    ((processOneLog flt l = some true) ↔
      ∃ ids, lookupFilter flt l.address = some ids ∧ t ∈ ids)
    ∧ (∀ ids, lookupFilter flt l.address = some ids →
      innerLoopCalls t ids = if t ∈ ids then 1 else 0) := by
  constructor
  · rcases hl : lookupFilter flt l.address with _ | ids
    · simp [processOneLog, hl]
    · rcases ids with _ | ⟨id, rest⟩
      · simp [processOneLog, hl]
      · simp [processOneLog, hl, h, topicLoopMatch_iff]
  · intro ids _
    exact innerLoopCalls_eq t ids

/-- Witness for `processLogs_filter_exact`: a log from address 7 with
primary topic 9 against the filter accepting topic 9 from address 7. -/
theorem processLogs_filter_exact_witness :
    (⟨7, [9]⟩ : Log).topics = 9 :: [] ∧
    ((processOneLog [(7, [9])] ⟨7, [9]⟩ = some true) ↔
      ∃ ids, lookupFilter [(7, [9])] (Log.address ⟨7, [9]⟩) = some ids ∧ 9 ∈ ids) :=
  ⟨rfl, (processLogs_filter_exact [(7, [9])] ⟨7, [9]⟩ 9 [] rfl).1⟩

/-- C10: the filtering loop reads `Topics[0]` unguarded: a log with at
least one topic never panics, but a zero-topic log whose address is a
filter key with a non-empty accepted set hits the out-of-bounds branch,
which is reachable from a full `processLogs` pass. -/
theorem processLogs_topics_oob :
    (∀ (flt : List (Nat × List Nat)) (l : Log), l.topics ≠ [] →
      processOneLog flt l ≠ none)
    ∧ (∀ (flt : List (Nat × List Nat)) (l : Log) (i : Nat) (ids : List Nat),
      lookupFilter flt l.address = some (i :: ids) → l.topics = [] →
      processOneLog flt l = none)
    ∧ (processLogs cfgF panicEnv w5).1 = Res.panicked := by
  refine ⟨?_, ?_, by decide⟩
  · intro flt l h
    rcases hl : lookupFilter flt l.address with _ | ids
    · simp [processOneLog, hl]
    · rcases ids with _ | ⟨id, rest⟩
      · simp [processOneLog, hl]
      · rcases ht : l.topics with _ | ⟨t, ts⟩
        · exact absurd ht h
        · simp [processOneLog, hl, ht]
  · intro flt l i ids hl ht
    simp [processOneLog, hl, ht]

/-- Witness for `processLogs_topics_oob`: a one-topic log never panics; a
zero-topic log from filtered address 7 panics. -/
theorem processLogs_topics_oob_witness :
    (⟨7, [9]⟩ : Log).topics ≠ [] ∧ processOneLog [(7, [9])] ⟨7, [9]⟩ ≠ none ∧
    lookupFilter [(7, [9])] (Log.address ⟨7, []⟩) = some (9 :: []) ∧
    (⟨7, []⟩ : Log).topics = [] ∧ processOneLog [(7, [9])] ⟨7, []⟩ = none :=
  ⟨by decide, processLogs_topics_oob.1 [(7, [9])] ⟨7, [9]⟩ (by decide), by decide, rfl,
    processLogs_topics_oob.2.1 [(7, [9])] ⟨7, []⟩ 9 [] (by decide) rfl⟩

/-- C1 (failing input for the claim): resyncing from `lastProcessed = 0`
to `latest.number = 5` with `syncBatchSize = 3` requests only blocks
1, 2, 3 via RPC — block 4 is never requested because the final partial
batch sets `end = latest.number − 1` and iterates `j < end` — so the
window's cache ends as blocks 1, 2, 3, 5 with a gap at 4. -/
theorem getNewState_gap_at_failing_input :
    (getNewState demoCfg demoEnvOk ⟨5, 105⟩ demoWorld).1 = Res.ok ∧
    (getNewState demoCfg demoEnvOk ⟨5, 105⟩ demoWorld).2.2 = [1, 2, 3] ∧
    ((getNewState demoCfg demoEnvOk ⟨5, 105⟩ demoWorld).2.1.container.cache.map
      Block.number) = [1, 2, 3, 5] := by
  decide

theorem bucketLookup_update (b : samBucket) (h : Nat) (v : samSet) :
    bucketLookup (bucketUpdate b h v) h = some v := by
  induction b with
  | nil => simp [bucketUpdate, bucketLookup]
  | cons p rest ih =>
    obtain ⟨k, s⟩ := p
    by_cases hk : k = h <;> simp [bucketUpdate, bucketLookup, hk, ih]

theorem bucketUpdate_update (b : samBucket) (h : Nat) (v v' : samSet) :
    bucketUpdate (bucketUpdate b h v) h v' = bucketUpdate b h v' := by
  induction b with
  | nil => simp [bucketUpdate]
  | cons p rest ih =>
    obtain ⟨k, s⟩ := p
    by_cases hk : k = h <;> simp [bucketUpdate, hk, ih]

theorem samSet.mem_add_signature (s : samSet) (m : SAM) :
    m.signature ∈ (s.add m).signatures := by
  unfold samSet.add
  split <;> simp_all

theorem samSet.add_add_same (s : samSet) (m m' : SAM)
    (hsig : m'.signature = m.signature) : (s.add m).add m' = s.add m := by
  have hmem : m'.signature ∈ (s.add m).signatures := by
    rw [hsig]; exact samSet.mem_add_signature s m
  show (if m'.signature ∈ (s.add m).signatures then s.add m
    else { messages := (s.add m).messages ++ [m'],
           signatures := (s.add m).signatures ++ [m'.signature] }) = s.add m
  exact if_pos hmem

theorem samSet.add_messages_of_not_mem (s : samSet) (m : SAM)
    (h : m.signature ∉ s.signatures) : (s.add m).messages = s.messages ++ [m] := by
  show (if m.signature ∈ s.signatures then s
    else { messages := s.messages ++ [m],
           signatures := s.signatures ++ [m.signature] }).messages = s.messages ++ [m]
  rw [if_neg h]

/-- C8: adding a second message with identical signature bytes for the
same subject leaves the bucket unchanged (so the subject's set has size 1
after two identical-signature adds from scratch), while adding a message
whose signature is not yet in the subject's set grows that subject's
message count by exactly one. -/
theorem sampool_add_dedup :
    (∀ (b : samBucket) (m m' : SAM), m'.hash = m.hash →
      m'.signature = m.signature →
      samBucket.add (samBucket.add b m) m' = samBucket.add b m)
    ∧ (∀ (b : samBucket) (m : SAM),
      m.signature ∉ ((bucketLookup b m.hash).getD newSet).signatures →
      subjectCount (samBucket.add b m) m.hash = subjectCount b m.hash + 1) := by
  constructor
  · intro b m m' hh hs
    unfold samBucket.add
    rw [hh, bucketLookup_update]
    simp only [Option.getD_some]
    rw [samSet.add_add_same _ _ _ hs, bucketUpdate_update]
  · intro b m h
    unfold subjectCount samBucket.add
    rw [bucketLookup_update]
    simp only [Option.getD_some]
    rw [samSet.add_messages_of_not_mem _ _ h]
    simp

/-- Witness for `sampool_add_dedup`: two same-signature messages about
subject 1 collapse to one entry, and a fresh signature grows the count
from 0 to 1. -/
theorem sampool_add_dedup_witness :
    samB.hash = samA.hash ∧ samB.signature = samA.signature ∧
    samBucket.add (samBucket.add [] samA) samB = samBucket.add [] samA ∧
    subjectCount (samBucket.add [] samA) samA.hash =
      subjectCount [] samA.hash + 1 :=
  ⟨rfl, rfl, sampool_add_dedup.1 [] samA samB rfl rfl,
    sampool_add_dedup.2 [] samA (by decide)⟩

/-- C9: `getQuorumMessages` returns none iff no subject's message count
satisfies the quorum predicate, and a non-none result is the complete
message set of some subject whose count satisfies the predicate. -/
theorem getQuorumMessages_spec (b : samBucket) (q : Nat → Bool) :
    (getQuorumMessages b q = none ↔
      ∀ p ∈ b, q p.2.messages.length = false)
    ∧ (∀ ms, getQuorumMessages b q = some ms →
      ∃ p ∈ b, p.2.messages = ms ∧ q ms.length = true) := by
  induction b with
  | nil => simp [getQuorumMessages]
  | cons hd rest ih =>
    obtain ⟨k, s⟩ := hd
    by_cases hq : q s.messages.length
    · constructor
      · constructor
        · intro hnone
          simp [getQuorumMessages, samSet.get, hq] at hnone
        · intro hall
          exact absurd (hall (k, s) (by simp)) (by simp [hq])
      · intro ms hms
        simp only [getQuorumMessages, samSet.get, hq, if_true,
          Option.some.injEq] at hms
        refine ⟨(k, s), by simp, hms, ?_⟩
        rw [← hms]; exact hq
    · have hrec : getQuorumMessages ((k, s) :: rest) q = getQuorumMessages rest q := by
        simp [getQuorumMessages, samSet.get, hq]
      constructor
      · rw [hrec, ih.1]
        constructor
        · intro hall
          intro p hp
          rcases List.mem_cons.1 hp with h1 | h2
          · rw [h1]; simpa using hq
          · exact hall p h2
        · intro hall p hp
          exact hall p (List.mem_cons_of_mem _ hp)
      · intro ms hms
        rw [hrec] at hms
        obtain ⟨p, hp, hmsg, hqq⟩ := ih.2 ms hms
        exact ⟨p, List.mem_cons_of_mem _ hp, hmsg, hqq⟩

/-- Witness for `getQuorumMessages_spec`: the one-subject demo bucket with
the at-least-one-message predicate returns that subject's full set. -/
theorem getQuorumMessages_spec_witness :
    ∃ p ∈ demoBucket, p.2.messages = [samA] ∧ demoQ [samA].length = true :=
  (getQuorumMessages_spec demoBucket demoQ).2 [samA] (by decide)

/-- C5 (counterexample): delivering to `trackBlock` a block whose number
(3) is equal to `lastCached` (a duplicate of the newest cached block) is
classified out of sync by the spec's `classify`, so it triggers the resync
procedure: with a failing provider it returns an error, and the window is
left reset (`lastCached` drops from 3 to 0) — not an error-free no-op
leaving `lastCached` unchanged. -/
theorem trackBlock_duplicate_counterexample :
    bC5.number ≤ lastCachedBlock wC5.container ∧
    lastCachedBlock wC5.container = 3 ∧
    (trackBlock cfgC5 envRpcErr wC5 bC5).1 = Res.err ∧
    lastCachedBlock (trackBlock cfgC5 envRpcErr wC5 bC5).2.1.container = 0 := by
  decide

/-- C5 (amended): delivering to `trackBlock` a block whose number is less
than or equal to `lastCached` does not take the sequential-append path at
all — the block is classified out of sync and `trackBlock` runs the resync
procedure `getNewState` on it. -/
theorem trackBlock_duplicate_amended (cfg : Cfg) (env : Env) (w : World)
    (b : Block) (h : b.number ≤ lastCachedBlock w.container) :
    trackBlock cfg env w b = getNewState cfg env b w := by
  have hne : isOutOfSync w.container b = true := by
    simp only [isOutOfSync, bne_iff_ne, ne_eq]
    omega
  simp [trackBlock, hne]

/-- Witness for `trackBlock_duplicate_amended` at the duplicate block 3. -/
theorem trackBlock_duplicate_amended_witness :
    bC5.number ≤ lastCachedBlock wC5.container ∧
    trackBlock cfgC5 envRpcErr wC5 bC5 = getNewState cfgC5 envRpcErr bC5 wC5 :=
  ⟨by decide, trackBlock_duplicate_amended cfgC5 envRpcErr wC5 bC5 (by decide)⟩

/-- C7: when the log fetch for a non-empty confirmed range fails,
`processLogs` returns the error having performed no mutation — no
watermark write, no log write, no eviction, no subscriber call — and the
same confirmed range remains pending for the next pass. -/
theorem processLogs_fetch_error (cfg : Cfg) (env : Env) (w : World)
    (confirmed : List Nat)
    (h : getConfirmedBlocks w.container cfg.numBlockConfirmations = some confirmed)
    (he : env.getLogs (confirmed.headD 0) (confirmed.getLastD 0) = none) :
    processLogs cfg env w =
      (Res.err, w, [Ev.getLogsCall (confirmed.headD 0) (confirmed.getLastD 0)])
    ∧ getConfirmedBlocks (processLogs cfg env w).2.1.container
        cfg.numBlockConfirmations = some confirmed := by
  have h1 : processLogs cfg env w =
      (Res.err, w, [Ev.getLogsCall (confirmed.headD 0) (confirmed.getLastD 0)]) := by
    simp only [processLogs, h]
    rw [he]
  exact ⟨h1, by rw [h1]; exact h⟩

/-- Witness for `processLogs_fetch_error`: blocks 1..3 of `w5` are
confirmed at depth 2 and the fetch fails. -/
theorem processLogs_fetch_error_witness :
    getConfirmedBlocks w5.container cfgF.numBlockConfirmations = some [1, 2, 3] ∧
    processLogs cfgF envG w5 = (Res.err, w5, [Ev.getLogsCall 1 3]) :=
  ⟨by decide, (processLogs_fetch_error cfgF envG w5 [1, 2, 3] (by decide) rfl).1⟩

theorem logsWriteAfterWM_addLogs (ls : List Log) (tr : List Ev) :
    logsWriteAfterWM (ls.map Ev.addLog ++ tr) = logsWriteAfterWM tr := by
  induction ls with
  | nil => rfl
  | cons l rest ih =>
    simp only [List.map_cons, List.cons_append, logsWriteAfterWM]
    exact ih

theorem evictGatedAux_addLogs (a b : Bool) (ls : List Log) (tr : List Ev) :
    evictGatedAux a b (ls.map Ev.addLog ++ tr) = evictGatedAux a b tr := by
  induction ls with
  | nil => rfl
  | cons l rest ih =>
    simp only [List.map_cons, List.cons_append, evictGatedAux]
    exact ih

theorem logsWriteAfterWM_addLogs_nil (ls : List Log) :
    logsWriteAfterWM (ls.map Ev.addLog) = true := by
  induction ls with
  | nil => rfl
  | cons l rest ih =>
    simp only [List.map_cons, logsWriteAfterWM]
    exact ih

theorem evictGatedAux_addLogs_nil (a b : Bool) (ls : List Log) :
    evictGatedAux a b (ls.map Ev.addLog) = true := by
  induction ls with
  | nil => rfl
  | cons l rest ih =>
    simp only [List.map_cons, evictGatedAux]
    exact ih

/-- C2: in every `processLogs` pass that finds a non-empty confirmed
range, the effect trace has the watermark write before the log write, an
eviction only after both writes, eviction only when both durable writes
succeed, and if either write fails the window is left unchanged. -/
theorem processLogs_write_order (cfg : Cfg) (env : Env) (w : World)
    (h : getConfirmedBlocks w.container cfg.numBlockConfirmations ≠ none) :
    logsWriteAfterWM (processLogs cfg env w).2.2 = true
    ∧ evictGated (processLogs cfg env w).2.2 = true
    ∧ (∀ f t, Ev.evict f t ∈ (processLogs cfg env w).2.2 →
        env.wmOk = true ∧ env.logsOk = true)
    ∧ ((env.wmOk = false ∨ env.logsOk = false) →
        (processLogs cfg env w).2.1.container = w.container) := by
  rcases hc : getConfirmedBlocks w.container cfg.numBlockConfirmations with _ | confirmed
  · exact absurd hc h
  simp only [processLogs, hc]
  cases hg : env.getLogs (confirmed.headD 0) (confirmed.getLastD 0) with
  | none => simp [logsWriteAfterWM, evictGated, evictGatedAux]
  | some logs =>
    simp only []
    cases hp : (filterLogsAcc cfg.logFilter logs).2 with
    | true =>
      simp [hp, logsWriteAfterWM, evictGated, evictGatedAux,
        logsWriteAfterWM_addLogs, evictGatedAux_addLogs,
        logsWriteAfterWM_addLogs_nil, evictGatedAux_addLogs_nil]
    | false =>
      cases hw : env.wmOk with
      | false =>
        simp [hp, hw, logsWriteAfterWM, evictGated, evictGatedAux,
          logsWriteAfterWM_addLogs, evictGatedAux_addLogs]
      | true =>
        cases hl : env.logsOk with
        | false =>
          simp [hp, hw, hl, logsWriteAfterWM, evictGated, evictGatedAux,
            logsWriteAfterWM_addLogs, evictGatedAux_addLogs]
        | true =>
          cases hr : removeBlocks w.container (confirmed.headD 0)
              (confirmed.getLastD 0) with
          | none =>
            simp [hp, hw, hl, hr, logsWriteAfterWM, evictGated, evictGatedAux,
              logsWriteAfterWM_addLogs, evictGatedAux_addLogs]
          | some c =>
            simp [hp, hw, hl, hr, logsWriteAfterWM, evictGated, evictGatedAux,
              logsWriteAfterWM_addLogs, evictGatedAux_addLogs]

/-- Witness for `processLogs_write_order` on a successful pass over the
confirmed range `[1, 3]` of `w5`. -/
theorem processLogs_write_order_witness :
    getConfirmedBlocks w5.container cfgF.numBlockConfirmations ≠ none ∧
    logsWriteAfterWM (processLogs cfgF envF w5).2.2 = true :=
  ⟨by decide, (processLogs_write_order cfgF envF w5 (by decide)).1⟩
